import Mathlib

/-!
# Verification of `src/scraper/main.py` (ccsit-schedule-maker)

Shallow embedding of the scraper's two functions, `fetchCourses` and
`convertJsonToCsv`, together with proofs of the specified properties.

Modelling choices, all read directly off the source:

* A course record (one element of the JSON array returned by the remote
  API, a Python dict) is an association list `List (String × String)`:
  keys in insertion order, first binding wins on lookup (Python dicts
  cannot repeat keys, so the first-binding convention is inert).
* The remote service is an environment `env : String → String → HttpOutcome`
  mapping a `(deptid, stdGnr)` query to what `session.get` + `response.json()`
  observe for that pair: an exception during send (`sendExn`), or a response
  with a status code and a body that either fails JSON parsing (`none`,
  i.e. `response.json()` raises) or parses to a JSON value (a list of
  records, or something that is not a list).
* One loop iteration of `fetchCourses` is `processPair`; the code inside
  the `try:` block is `tryBody`, which returns `Except` (an exception is
  `.error ()`), a possibly-updated state, and a flag telling whether the
  iteration falls through to `time.sleep(1)` (the two `continue`
  statements jump past the sleep).
* Observable history is a trace of events: one `request` event per
  `session.get` call and one `sleep` event per executed `time.sleep(1)`.
-/

set_option autoImplicit false

abbrev Record := List (String × String)

/-- A JSON body as classified by `isinstance(data, list)` in the source:
either a list of course records, or any other JSON value. -/
inductive Json where
  | arr (elems : List Record)
  | other
deriving DecidableEq, Repr

/-- What one `session.get` call (followed by `response.json()` when the
status is inspected) can observe, as one request's outcome. `sendExn` is
an exception raised by `session.get` itself; `response st body` is a
reply with HTTP status `st`, where `body = none` means `response.json()`
raises (malformed JSON) and `body = some j` means it parses to `j`. -/
inductive HttpOutcome where
  | sendExn
  | response (status : Nat) (body : Option Json)
deriving DecidableEq, Repr

/-- The remote service: outcome of the single request issued for a given
`(deptid, stdGnr)` query pair. -/
abbrev Env := String → String → HttpOutcome

/-- Observable events of one run of `fetchCourses`: each `session.get`
call (with its `deptid` and `stdGnr` parameters) and each executed
`time.sleep(1)`. -/
inductive Event where
  | request (gndr dept : String)
  | sleep
deriving DecidableEq, Repr

/-- `deptid = ["0901", ..., "0924"]` from the source. -/
def deptid : List String :=
  ["0901", "0911", "0921", "0902", "0912", "0922",
   "0903", "0913", "0923", "0904", "0914", "0924"]

/-- `stdGnr = ["11", "12"]` from the source. -/
def stdGnr : List String := ["11", "12"]

/-- State of the fetch loop: the two accumulators
(`maleCoursesJson`, `femaleCoursesJson`) and the event trace. -/
structure FetchState where
  male : List Record
  female : List Record
  trace : List Event
deriving DecidableEq, Repr

def initFetchState : FetchState := ⟨[], [], []⟩

/-- The body of the inner `try:` block, entered after `session.get` has
been called. Returns `.error ()` when an exception propagates to the
`except` handler (send failure, or `response.json()` raising), and
otherwise the updated state together with `true` iff control falls
through to `time.sleep(1)` (the `continue` for a non-200 status jumps
past the sleep). -/
def tryBody (env : Env) (s : FetchState) (gndr dept : String) :
    Except Unit (FetchState × Bool) :=
  match env dept gndr with
  | .sendExn => .error ()
  | .response st body =>
    if st ≠ 200 then
      .ok (s, false)
    else
      match body with
      | none => .error ()
      | some (.arr xs) =>
        if gndr == "11" then .ok ({ s with male := s.male ++ xs }, true)
        else .ok ({ s with female := s.female ++ xs }, true)
      | some .other => .ok (s, true)

/-- One iteration of the fetch loop for the pair `(gndr, dept)`: issue
the request (one `request` event), run the `try:` body, catch any
exception (`except Exception: ... continue`, which skips the sleep), and
append a `sleep` event exactly when the body falls through to
`time.sleep(1)`. -/
def processPair (env : Env) (s : FetchState) (gndr dept : String) : FetchState :=
  let s1 := { s with trace := s.trace ++ [Event.request gndr dept] }
  match tryBody env s1 gndr dept with
  | .error () => s1
  | .ok (s2, doSleep) =>
    if doSleep then { s2 with trace := s2.trace ++ [Event.sleep] } else s2

/-- `fetchCourses`: the nested loop (`for gndr in stdGnr: for dept in
deptid:`) folded over the initial state; returns the two accumulators
and the event trace. The outer `try/finally` only closes the session
and does not affect the returned data. -/
def fetchCourses (env : Env) : List Record × List Record × List Event :=
  let final := stdGnr.foldl
    (fun acc gndr => deptid.foldl (fun acc2 dept => processPair env acc2 gndr dept) acc)
    initFetchState
  (final.male, final.female, final.trace)

/-- The 24 `(stdGnr, deptid)` pairs in iteration order (cohort outer,
department inner). -/
def allPairs : List (String × String) :=
  stdGnr.flatMap (fun gndr => deptid.map (fun dept => (gndr, dept)))

/-- The fetch loop over an explicit list of pairs (used to relate the
nested loop to a single fold, and to express counterfactual runs that
skip a pair). -/
def fetchPairs (env : Env) (ps : List (String × String)) : FetchState :=
  ps.foldl (fun s p => processPair env s p.1 p.2) initFetchState

/-- The counterfactual run in which the pair `P` is never visited. -/
def fetchSkipping (env : Env) (P : String × String) : FetchState :=
  fetchPairs env (allPairs.filter (fun q => q ≠ P))

/-!
## Tabular Exporter (`convertJsonToCsv`)

`pd.DataFrame(data)` built from a list of dicts has as columns the union
of the records' keys in first-seen order (`dfColumns`); a cell holds the
record's value for that key, or NaN when absent. `df[existing_cols]`
projects onto the expected columns that are present (`existing_cols`),
and `df.to_csv(..., index=False, encoding="utf-8-sig")` writes a BOM,
then the header line, then one line per row, NaN rendered as the empty
cell. Line separator is modelled as `"\n"`. CSV quoting of cell text is
not modelled (no property below depends on it).
-/

/-- `cols` from the source: the ten expected field names in their fixed
left-to-right order. -/
def cols : List String :=
  ["Course", "CRN", "Division", "Availability", "CourseTitle",
   "Activity", "Hours", "Days", "Time", "Teacher"]

/-- Columns of `pd.DataFrame(data)`: union of the records' keys in
first-seen order. -/
def dfColumns (data : List Record) : List String :=
  data.foldl (fun acc r => acc ++ (r.map Prod.fst).filter (fun k => !acc.contains k)) []

/-- `existing_cols = [c for c in cols if c in df.columns]`. -/
def existing_cols (data : List Record) : List String :=
  cols.filter (fun c => (dfColumns data).contains c)

/-- The cells of one CSV data row of `df[existing_cols]` for record `r`:
the record's value per included column, the empty cell when the record
lacks the key (pandas NaN rendered as empty by `to_csv`). -/
def rowCells (data : List Record) (r : Record) : List String :=
  (existing_cols data).map (fun c => (r.lookup c).getD "")

/-- The byte content written by
`df.to_csv(filePath, index=False, encoding="utf-8-sig")`: a UTF-8 BOM,
then the header line, then one line per record. -/
def csvString (header : List String) (rows : List (List String)) : String :=
  "\uFEFF" ++ String.join ((header :: rows).map (fun cells => String.intercalate "," cells ++ "\n"))

/-- Full file content for one cohort's accumulator. -/
def csvOf (data : List Record) : String :=
  csvString (existing_cols data) (data.map (rowCells data))

/-- `fileName = f"ccsit_{gndr}_courses.csv"` (the `os.path.join` with
`public` is directory plumbing, outside the modelled content). -/
def fileName (gndr : String) : String :=
  "ccsit_" ++ gndr ++ "_courses.csv"

/-- State threaded through the exporter's loop: the two input
accumulators as seen by the caller's variables, and the files written so
far as (name, content) pairs. The loop body only reads `male`/`female`
(the emptiness test and the DataFrame construction) and appends to
`files`; no statement in the source mutates the input lists. -/
structure ExportState where
  male : List Record
  female : List Record
  files : List (String × String)
deriving DecidableEq, Repr

/-- One iteration of `for gndr in gndrs:` — select the cohort's data,
skip if empty (`if not data: continue`), otherwise write the file. -/
def exportIter (st : ExportState) (gndr : String) : ExportState :=
  let data := if gndr == "male" then st.male else st.female
  if data.isEmpty then st
  else { st with files := st.files ++ [(fileName gndr, csvOf data)] }

/-- `convertJsonToCsv` as a state transformer: the loop over
`gndrs = ["male", "female"]`. -/
def convertJsonToCsvRun (maleCoursesJson femaleCoursesJson : List Record) : ExportState :=
  ["male", "female"].foldl exportIter ⟨maleCoursesJson, femaleCoursesJson, []⟩

/-- The files written by `convertJsonToCsv`, in write order. -/
def convertJsonToCsv (maleCoursesJson femaleCoursesJson : List Record) :
    List (String × String) :=
  (convertJsonToCsvRun maleCoursesJson femaleCoursesJson).files

/-!
## Derived notions used by the statements
-/

/-- A request outcome that the claims classify as a failure: exception
during send, non-success HTTP status, exception while parsing the body,
or a 200 response whose JSON body is not a list. -/
def isFailure : HttpOutcome → Bool
  | .sendExn => true
  | .response st body =>
    if st ≠ 200 then true
    else
      match body with
      | none => true
      | some (.arr _) => false
      | some .other => true

/-- The records one request outcome contributes to its cohort's
accumulator: the body's elements on a 200 response with a list body,
nothing otherwise. -/
def contrib : HttpOutcome → List Record
  | .response 200 (some (.arr xs)) => xs
  | _ => []

/-- Whether the loop iteration with this outcome reaches `time.sleep(1)`:
only when the status is 200 and `response.json()` returns (the two
`continue` statements and the `except` handler all skip the sleep). -/
def sleeps : HttpOutcome → Bool
  | .response 200 (some _) => true
  | _ => false

/-- The requests recorded in a trace, in issue order. -/
def requestsOf (tr : List Event) : List (String × String) :=
  tr.filterMap (fun e => match e with | .request g d => some (g, d) | .sleep => none)

/-- The slice of trace produced by the iteration for pair `p`. -/
def blockOf (env : Env) (p : String × String) : List Event :=
  Event.request p.1 p.2 :: (if sleeps (env p.2 p.1) then [Event.sleep] else [])

/-- `contrib` for a pair in iteration order. -/
def pairContrib (env : Env) (p : String × String) : List Record :=
  contrib (env p.2 p.1)

/-- Whether an event is a `session.get` call. -/
def isRequest : Event → Bool
  | .request _ _ => true
  | .sleep => false

/-- `true` iff the trace never shows two `request` events back to back,
i.e. every two consecutive requests have some event (a sleep) between
them. -/
def noDoubleRequest : List Event → Bool
  | [] => true
  | [_] => true
  | e1 :: e2 :: rest => !(isRequest e1 && isRequest e2) && noDoubleRequest (e2 :: rest)

/-- One iteration of the fetch loop in the exception monad: the
`except Exception` handler turns any error of the `try:` body into a
normal continuation (`.ok`), so the iteration itself never propagates an
error. -/
def iterE (env : Env) (s : FetchState) (gndr dept : String) : Except Unit FetchState :=
  let s1 := { s with trace := s.trace ++ [Event.request gndr dept] }
  match tryBody env s1 gndr dept with
  | .error () => .ok s1
  | .ok (s2, doSleep) =>
    .ok (if doSleep then { s2 with trace := s2.trace ++ [Event.sleep] } else s2)

/-- `fetchCourses` in the exception monad: the nested loop where an
uncaught in-loop exception would surface as `.error`; returning the two
accumulators to the caller. -/
def fetchCoursesE (env : Env) : Except Unit (List Record × List Record) := do
  let final ← stdGnr.foldlM
    (fun acc gndr => deptid.foldlM (fun acc2 dept => iterE env acc2 gndr dept) acc)
    initFetchState
  return (final.male, final.female)

/-- File content for a cohort whose records carry none of the expected
field names: an empty header line and one blank line per record. -/
def blankCsv (n : Nat) : String :=
  "\uFEFF" ++ String.join (List.replicate (n + 1) "\n")

/-- Witness environment: every request gets HTTP 404. -/
def env404 : Env := fun _ _ => .response 404 none

/-- Witness environment: every request succeeds with a one-record list. -/
def envArr : Env :=
  fun _ _ => .response 200 (some (.arr [[("Course", "CS101"), ("CRN", "10001")]]))

/-- Witness environment: every `session.get` raises. -/
def envExn : Env := fun _ _ => .sendExn

/-!
## Step and fold characterization of the fetch loop
-/

theorem processPair_eq (env : Env) (s : FetchState) (gndr dept : String) :
    processPair env s gndr dept =
      { male := s.male ++ (if gndr == "11" then contrib (env dept gndr) else []),
        female := s.female ++ (if gndr == "11" then [] else contrib (env dept gndr)),
        trace := s.trace ++ [Event.request gndr dept] ++
          (if sleeps (env dept gndr) then [Event.sleep] else []) } := by
  unfold processPair tryBody
  cases h : env dept gndr with
  | sendExn => simp [contrib, sleeps]
  | response st body =>
    by_cases hst : st = 200
    · subst hst
      cases body with
      | none => simp [contrib, sleeps]
      | some j =>
        cases j with
        | arr xs =>
          cases hg : gndr == "11" <;> simp [contrib, sleeps, hg]
        | other => simp [contrib, sleeps]
    · have h200 : (st ≠ 200) = True := by simp [hst]
      simp only [h200, if_true]
      have hc : contrib (HttpOutcome.response st body) = [] := by
        unfold contrib
        split
        · rename_i heq
          cases heq
          exact absurd rfl hst
        · rfl
      have hsl : sleeps (HttpOutcome.response st body) = false := by
        unfold sleeps
        split
        · rename_i heq
          cases heq
          exact absurd rfl hst
        · rfl
      simp [hc, hsl]

theorem fetchPairs_go (env : Env) (ps : List (String × String)) (s : FetchState) :
    ps.foldl (fun t p => processPair env t p.1 p.2) s =
      { male := s.male ++ ps.flatMap (fun p => if p.1 == "11" then pairContrib env p else []),
        female := s.female ++ ps.flatMap (fun p => if p.1 == "11" then [] else pairContrib env p),
        trace := s.trace ++ ps.flatMap (blockOf env) } := by
  induction ps generalizing s with
  | nil => simp
  | cons p ps ih =>
    rw [List.foldl_cons, ih, processPair_eq]
    simp [blockOf, pairContrib, List.append_assoc]

theorem fetchPairs_eq (env : Env) (ps : List (String × String)) :
    fetchPairs env ps =
      { male := ps.flatMap (fun p => if p.1 == "11" then pairContrib env p else []),
        female := ps.flatMap (fun p => if p.1 == "11" then [] else pairContrib env p),
        trace := ps.flatMap (blockOf env) } := by
  rw [fetchPairs, fetchPairs_go]
  rfl

theorem fetchCourses_eq_fetchPairs (env : Env) :
    fetchCourses env =
      ((fetchPairs env allPairs).male, (fetchPairs env allPairs).female,
        (fetchPairs env allPairs).trace) :=
  rfl

theorem requestsOf_flatMap_block (env : Env) (ps : List (String × String)) :
    requestsOf (ps.flatMap (blockOf env)) = ps := by
  induction ps with
  | nil => rfl
  | cons p ps ih =>
    cases hsl : sleeps (env p.2 p.1) <;>
      simp [blockOf, requestsOf, hsl, List.filterMap_append] <;>
      simpa [requestsOf] using ih

theorem contrib_eq_nil_of_isFailure {o : HttpOutcome} (h : isFailure o = true) :
    contrib o = [] := by
  cases o with
  | sendExn => rfl
  | response st body =>
    unfold contrib
    split
    · rename_i heq
      cases heq
      simp [isFailure] at h
    · rfl

theorem contrib_response_404 (body : Option Json) :
    contrib (HttpOutcome.response 404 body) = [] := by
  rcases body with _ | j
  · rfl
  · cases j <;> rfl

theorem flatMap_filter_ne {α β : Type} [DecidableEq α] (f : α → List β) (P : α)
    (hP : f P = []) (ps : List α) :
    ps.flatMap f = (ps.filter (fun q => q ≠ P)).flatMap f := by
  induction ps with
  | nil => rfl
  | cons a ps ih =>
    by_cases ha : a = P
    · subst ha
      simp [List.filter_cons, hP, ih]
    · simp [List.filter_cons, ha, ih]

theorem flatMap_ite_eq_filter {α β : Type} (p : α → Bool) (f : α → List β)
    (ps : List α) :
    ps.flatMap (fun a => if p a then f a else []) = (ps.filter p).flatMap f := by
  induction ps with
  | nil => rfl
  | cons a ps ih =>
    cases hpa : p a <;> simp [List.filter_cons, hpa, ih]

/-- The male accumulator of a run, as the in-order concatenation of the
contributions of the "11" pairs. -/
theorem fetchCourses_male (env : Env) :
    (fetchCourses env).1 =
      allPairs.flatMap (fun p => if p.1 == "11" then pairContrib env p else []) := by
  rw [fetchCourses_eq_fetchPairs]
  show (fetchPairs env allPairs).male = _
  rw [fetchPairs_eq]

/-- The female accumulator of a run, as the in-order concatenation of
the contributions of the non-"11" pairs. -/
theorem fetchCourses_female (env : Env) :
    (fetchCourses env).2.1 =
      allPairs.flatMap (fun p => if p.1 == "11" then [] else pairContrib env p) := by
  rw [fetchCourses_eq_fetchPairs]
  show (fetchPairs env allPairs).female = _
  rw [fetchPairs_eq]

/-- The trace of a run, as the in-order concatenation of per-pair blocks. -/
theorem fetchCourses_trace (env : Env) :
    (fetchCourses env).2.2 = allPairs.flatMap (blockOf env) := by
  rw [fetchCourses_eq_fetchPairs]
  show (fetchPairs env allPairs).trace = _
  rw [fetchPairs_eq]

/-- **C1.** Any per-request failure (send/parse exception, non-success
HTTP status, or a 200 response whose JSON body is not a list)
contributes zero records to either accumulator; iteration over the
remaining pairs continues, so every pair is still requested; and for any
pair `P` answered with HTTP 404, both accumulator lengths equal those of
the run in which `P` is never visited. -/
theorem failed_request_contributes_nothing (env : Env) :
    (∀ (s : FetchState) (gndr dept : String), isFailure (env dept gndr) = true →
        (processPair env s gndr dept).male = s.male ∧
        (processPair env s gndr dept).female = s.female) ∧
    (∀ (P : String × String) (body : Option Json),
        env P.2 P.1 = HttpOutcome.response 404 body →
        (fetchCourses env).1.length = (fetchSkipping env P).male.length ∧
        (fetchCourses env).2.1.length = (fetchSkipping env P).female.length) ∧
    requestsOf (fetchCourses env).2.2 = allPairs := by
  refine ⟨?_, ?_, ?_⟩
  · intro s gndr dept h
    rw [processPair_eq]
    have hc := contrib_eq_nil_of_isFailure h
    cases hg : gndr == "11" <;> simp [hg, hc]
  · intro P body hP
    have hPc : pairContrib env P = [] := by
      unfold pairContrib
      rw [hP]
      exact contrib_response_404 body
    have hmale :
        (fetchCourses env).1 = (fetchSkipping env P).male := by
      rw [fetchCourses_male]
      unfold fetchSkipping
      rw [fetchPairs_eq]
      show _ = (allPairs.filter (fun q => q ≠ P)).flatMap
        (fun p => if p.1 == "11" then pairContrib env p else [])
      apply flatMap_filter_ne
      cases hg : P.1 == "11" <;> simp [hg, hPc]
    have hfemale :
        (fetchCourses env).2.1 = (fetchSkipping env P).female := by
      rw [fetchCourses_female]
      unfold fetchSkipping
      rw [fetchPairs_eq]
      show _ = (allPairs.filter (fun q => q ≠ P)).flatMap
        (fun p => if p.1 == "11" then [] else pairContrib env p)
      apply flatMap_filter_ne
      cases hg : P.1 == "11" <;> simp [hg, hPc]
    exact ⟨congrArg List.length hmale, congrArg List.length hfemale⟩
  · rw [fetchCourses_trace]
    exact requestsOf_flatMap_block env allPairs

/-- **C1 witness**: with every request answered 404, a single iteration
leaves both accumulators empty, the run's accumulators have the lengths
of the run that skips ("11", "0901"), and all pairs are still
requested. -/
theorem failed_request_contributes_nothing_witness :
    (processPair env404 initFetchState "11" "0901").male = initFetchState.male ∧
    (fetchCourses env404).1.length =
      (fetchSkipping env404 ("11", "0901")).male.length ∧
    requestsOf (fetchCourses env404).2.2 = allPairs :=
  ⟨((failed_request_contributes_nothing env404).1 initFetchState "11" "0901" rfl).1,
   ((failed_request_contributes_nothing env404).2.1 ("11", "0901") none rfl).1,
   (failed_request_contributes_nothing env404).2.2⟩

/-- **C2.** Exactly one request is issued per run for each of the 24
pairs in the cross product of the 12 department codes and the 2 cohort
codes, in iteration order, with no pair skipped or duplicated,
regardless of how each request's outcome is classified. -/
theorem every_pair_requested_exactly_once (env : Env) :
    requestsOf (fetchCourses env).2.2 = allPairs ∧
    allPairs = stdGnr.flatMap (fun gndr => deptid.map (fun dept => (gndr, dept))) ∧
    allPairs.Nodup ∧ allPairs.length = 24 ∧
    deptid.length = 12 ∧ stdGnr = ["11", "12"] := by
  refine ⟨?_, rfl, by decide, by decide, by decide, rfl⟩
  rw [fetchCourses_trace]
  exact requestsOf_flatMap_block env allPairs

/-- **C3.** On a 200 response with a JSON list body, all its elements
are appended, in order, to the male accumulator when the cohort code is
"11" and to the female accumulator otherwise, leaving the other
accumulator unchanged; globally, each returned accumulator is exactly
the in-order concatenation of the successful contributions of its
cohort's pairs, in request-issue order (never re-sorted). -/
theorem success_appends_in_issue_order (env : Env) :
    (∀ (s : FetchState) (gndr dept : String) (xs : List Record),
        env dept gndr = HttpOutcome.response 200 (some (Json.arr xs)) →
        ((gndr == "11") = true →
            (processPair env s gndr dept).male = s.male ++ xs ∧
            (processPair env s gndr dept).female = s.female) ∧
        ((gndr == "11") = false →
            (processPair env s gndr dept).female = s.female ++ xs ∧
            (processPair env s gndr dept).male = s.male)) ∧
    (fetchCourses env).1 =
      (allPairs.filter (fun p => p.1 == "11")).flatMap (pairContrib env) ∧
    (fetchCourses env).2.1 =
      (allPairs.filter (fun p => !(p.1 == "11"))).flatMap (pairContrib env) := by
  refine ⟨?_, ?_, ?_⟩
  · intro s gndr dept xs hok
    rw [processPair_eq]
    have hc : contrib (env dept gndr) = xs := by rw [hok]; rfl
    constructor
    · intro hg
      simp [hg, hc]
    · intro hg
      simp [hg, hc]
  · rw [fetchCourses_male]
    exact flatMap_ite_eq_filter (fun p => p.1 == "11") (pairContrib env) allPairs
  · rw [fetchCourses_female]
    have hfun :
        (fun p : String × String => if p.1 == "11" then ([] : List Record)
            else pairContrib env p) =
          (fun p : String × String => if !(p.1 == "11") then pairContrib env p
            else []) := by
      funext p
      cases hg : p.1 == "11" <;> simp [hg]
    rw [hfun]
    exact flatMap_ite_eq_filter (fun p => !(p.1 == "11")) (pairContrib env) allPairs

/-- **C3 witness**: with every request answered by a 200 list response
holding one record, a "11" iteration appends that record to the male
accumulator only, and the run's accumulators are the filtered in-order
concatenations. -/
theorem success_appends_in_issue_order_witness :
    (processPair envArr initFetchState "11" "0901").male =
      initFetchState.male ++ [[("Course", "CS101"), ("CRN", "10001")]] ∧
    (fetchCourses envArr).1 =
      (allPairs.filter (fun p => p.1 == "11")).flatMap (pairContrib envArr) :=
  ⟨(((success_appends_in_issue_order envArr).1 initFetchState "11" "0901"
      [[("Course", "CS101"), ("CRN", "10001")]] rfl).1 rfl).1,
   (success_appends_in_issue_order envArr).2.1⟩

/-- **C4 counterexample.** With every request answered HTTP 404, the
`continue` after the status check jumps past `time.sleep(1)`, so the
trace shows consecutive `request` events with no intervening sleep: the
claim "a pause is taken after every attempt, even a failed one" is false
on the code. -/
theorem pause_after_every_attempt_counterexample :
    noDoubleRequest (fetchCourses env404).2.2 = false := by decide

/-- **C4 (amended).** A fixed one-time-unit pause follows an attempt iff
the attempt ran to the end of the loop body: HTTP status 200 and a body
that parses (whether or not it is a list). After a send/parse exception
or a non-success status, the `continue` skips the sleep and the next
pair's request is issued with no intervening delay. The trace is exactly
one `request` event per pair, in order, followed by a `sleep` event
exactly when `sleeps` holds of that pair's outcome. -/
theorem pause_exactly_after_completed_attempts (env : Env) :
    (fetchCourses env).2.2 =
      allPairs.flatMap (fun p =>
        Event.request p.1 p.2 ::
          (if sleeps (env p.2 p.1) then [Event.sleep] else [])) :=
  fetchCourses_trace env

theorem iterE_eq_ok (env : Env) (s : FetchState) (gndr dept : String) :
    iterE env s gndr dept = Except.ok (processPair env s gndr dept) := by
  unfold iterE processPair
  cases h : tryBody env { s with trace := s.trace ++ [Event.request gndr dept] } gndr dept with
  | error e => cases e; simp [h]
  | ok v => simp [h]

theorem foldlM_except_ok {α β : Type} (f : β → α → Except Unit β) (g : β → α → β)
    (hfg : ∀ b a, f b a = Except.ok (g b a)) :
    ∀ (L : List α) (s : β), L.foldlM f s = Except.ok (L.foldl g s) := by
  intro L
  induction L with
  | nil => intro s; rfl
  | cons a L ih =>
    intro s
    rw [List.foldlM_cons, hfg]
    exact ih (g s a)

/-- **C8.** In the exception monad, `fetchCourses` never surfaces an
error: it always returns `.ok` with the pair of accumulators, because
the handler inside the loop turns every error of the `try:` body into a
normal continuation with both accumulators unchanged (zero records for
that pair). -/
theorem fetchCourses_never_raises (env : Env) :
    fetchCoursesE env = Except.ok ((fetchCourses env).1, (fetchCourses env).2.1) ∧
    (∀ (s : FetchState) (gndr dept : String),
        tryBody env { s with trace := s.trace ++ [Event.request gndr dept] } gndr dept =
          Except.error () →
        iterE env s gndr dept =
          Except.ok { s with trace := s.trace ++ [Event.request gndr dept] }) := by
  constructor
  · have inner : ∀ (acc : FetchState) (gndr : String),
        deptid.foldlM (fun acc2 dept => iterE env acc2 gndr dept) acc =
          Except.ok (deptid.foldl (fun acc2 dept => processPair env acc2 gndr dept) acc) :=
      fun acc gndr =>
        foldlM_except_ok _ _ (fun b a => iterE_eq_ok env b gndr a) deptid acc
    have outer := foldlM_except_ok
      (fun acc gndr => deptid.foldlM (fun acc2 dept => iterE env acc2 gndr dept) acc)
      (fun acc gndr => deptid.foldl (fun acc2 dept => processPair env acc2 gndr dept) acc)
      inner stdGnr initFetchState
    unfold fetchCoursesE
    rw [outer]
    rfl
  · intro s gndr dept h
    unfold iterE
    simp only []
    rw [h]

/-- **C8 witness**: with every `session.get` raising, the handler yields
a normal continuation for the first pair, and the whole run returns
`.ok` with the two (empty) accumulators. -/
theorem fetchCourses_never_raises_witness :
    iterE envExn initFetchState "11" "0901" =
      Except.ok { initFetchState with
        trace := initFetchState.trace ++ [Event.request "11" "0901"] } ∧
    fetchCoursesE envExn =
      Except.ok ((fetchCourses envExn).1, (fetchCourses envExn).2.1) :=
  ⟨(fetchCourses_never_raises envExn).2 initFetchState "11" "0901" rfl,
   (fetchCourses_never_raises envExn).1⟩

theorem convertJsonToCsv_eq (m f : List Record) :
    convertJsonToCsv m f =
      (if m.isEmpty then [] else [(fileName "male", csvOf m)]) ++
      (if f.isEmpty then [] else [(fileName "female", csvOf f)]) := by
  cases m <;> cases f <;> rfl

theorem mem_dfColumns (data : List Record) (c : String) :
    c ∈ dfColumns data ↔ ∃ r ∈ data, c ∈ r.map Prod.fst := by
  have aux : ∀ (l : List Record) (acc : List String),
      c ∈ l.foldl
          (fun acc r => acc ++ (r.map Prod.fst).filter (fun k => !acc.contains k)) acc ↔
        c ∈ acc ∨ ∃ r ∈ l, c ∈ r.map Prod.fst := by
    intro l
    induction l with
    | nil => simp
    | cons r l ih =>
      intro acc
      rw [List.foldl_cons, ih]
      constructor
      · rintro (hmem | hrest)
        · rcases List.mem_append.mp hmem with hacc | hfil
          · exact Or.inl hacc
          · exact Or.inr ⟨r, List.mem_cons_self r l, (List.mem_filter.mp hfil).1⟩
        · rcases hrest with ⟨r', hr', hc⟩
          exact Or.inr ⟨r', List.mem_cons_of_mem r hr', hc⟩
      · rintro (hacc | ⟨r', hr', hc⟩)
        · exact Or.inl (List.mem_append.mpr (Or.inl hacc))
        · rcases List.mem_cons.mp hr' with rfl | hr'
          · by_cases hin : c ∈ acc
            · exact Or.inl (List.mem_append.mpr (Or.inl hin))
            · refine Or.inl (List.mem_append.mpr (Or.inr ?_))
              refine List.mem_filter.mpr ⟨hc, ?_⟩
              simp [hin]
          · exact Or.inr ⟨r', hr', hc⟩
  simpa [dfColumns] using aux data []

/-- **C5.** For a non-empty accumulator, the exported column set is
exactly the subset of the ten expected field names that appear as a key
in at least one record, in the fixed left-to-right order of `cols`;
names outside the ten never appear; and a record lacking an included
column gets an empty cell in that column of its row. -/
theorem exported_columns_projection (data : List Record) (h : data ≠ []) :
    existing_cols data =
      cols.filter (fun c => data.any (fun r => r.any (fun kv => kv.1 == c))) ∧
    (∀ c ∈ existing_cols data, c ∈ cols) ∧
    (∀ r ∈ data, ∀ c ∈ existing_cols data, r.lookup c = none →
        (c, "") ∈ (existing_cols data).zip (rowCells data r)) := by
  refine ⟨?_, ?_, ?_⟩
  · unfold existing_cols
    apply List.filter_congr
    intro c _
    rw [Bool.eq_iff_iff]
    simp only [List.elem_eq_mem, decide_eq_true_eq, mem_dfColumns, List.any_eq_true,
      List.mem_map, beq_iff_eq, Prod.exists, exists_and_right, exists_eq_right]
  · intro c hc
    exact List.mem_of_mem_filter hc
  · intro r _ c hc hnone
    unfold rowCells
    have hz := List.zip_map' (fun a : String => a) (fun c => (r.lookup c).getD "")
      (existing_cols data)
    rw [List.map_id'] at hz
    rw [hz]
    have : (c, "") = (c, (r.lookup c).getD "") := by rw [hnone]; rfl
    rw [this]
    exact List.mem_map.mpr ⟨c, hc, rfl⟩

/-- **C5 witness**: the spec's concrete example — records
`[{"Course":"101","Foo":"x"}, {"Course":"102","CRN":"5"}]` give columns
`Course, CRN`, and the first row's `CRN` cell is empty. -/
theorem exported_columns_projection_witness :
    existing_cols [[("Course", "101"), ("Foo", "x")], [("Course", "102"), ("CRN", "5")]] =
      ["Course", "CRN"] ∧
    rowCells [[("Course", "101"), ("Foo", "x")], [("Course", "102"), ("CRN", "5")]]
      [("Course", "101"), ("Foo", "x")] = ["101", ""] ∧
    existing_cols [[("Course", "101"), ("Foo", "x")], [("Course", "102"), ("CRN", "5")]] =
      cols.filter (fun c =>
        [[("Course", "101"), ("Foo", "x")], [("Course", "102"), ("CRN", "5")]].any
          (fun r => r.any (fun kv => kv.1 == c))) :=
  ⟨by decide, by decide,
   (exported_columns_projection
      [[("Course", "101"), ("Foo", "x")], [("Course", "102"), ("CRN", "5")]]
      (by decide)).1⟩

theorem male_file_mem (m f : List Record) (hm : m ≠ []) :
    (fileName "male", csvOf m) ∈ convertJsonToCsv m f := by
  rw [convertJsonToCsv_eq]
  cases m with
  | nil => exact absurd rfl hm
  | cons a as => cases f <;> simp

theorem female_file_mem (m f : List Record) (hf : f ≠ []) :
    (fileName "female", csvOf f) ∈ convertJsonToCsv m f := by
  rw [convertJsonToCsv_eq]
  cases f with
  | nil => exact absurd rfl hf
  | cons a as => cases m <;> simp

/-- **C6.** A cohort whose accumulator is empty produces no output file,
while the other cohort's file is still created when its accumulator is
non-empty; in particular an empty female accumulator yields no
`ccsit_female_courses.csv` but does not prevent
`ccsit_male_courses.csv`. -/
theorem empty_cohort_skipped (m f : List Record) :
    (m = [] → ∀ o ∈ convertJsonToCsv m f, o.1 ≠ fileName "male") ∧
    (f = [] → ∀ o ∈ convertJsonToCsv m f, o.1 ≠ fileName "female") ∧
    (m ≠ [] → (fileName "male", csvOf m) ∈ convertJsonToCsv m f) ∧
    (f ≠ [] → (fileName "female", csvOf f) ∈ convertJsonToCsv m f) := by
  have hne : fileName "female" ≠ fileName "male" := by decide
  have hne' : fileName "male" ≠ fileName "female" := by decide
  refine ⟨?_, ?_, fun hm => male_file_mem m f hm, fun hf => female_file_mem m f hf⟩
  · rintro rfl o ho
    rw [convertJsonToCsv_eq] at ho
    cases f with
    | nil => simp at ho
    | cons a as =>
      simp at ho
      rw [ho]
      exact hne
  · rintro rfl o ho
    rw [convertJsonToCsv_eq] at ho
    cases m with
    | nil => simp at ho
    | cons a as =>
      simp at ho
      rw [ho]
      exact hne'

/-- **C6 witness**: with a one-record male accumulator and an empty
female accumulator, no output is named `ccsit_female_courses.csv` and
the male file is written. -/
theorem empty_cohort_skipped_witness :
    (∀ o ∈ convertJsonToCsv [[("Course", "CS101")]] [], o.1 ≠ fileName "female") ∧
    (fileName "male", csvOf [[("Course", "CS101")]]) ∈
      convertJsonToCsv [[("Course", "CS101")]] [] :=
  ⟨(empty_cohort_skipped [[("Course", "CS101")]] []).2.1 rfl,
   (empty_cohort_skipped [[("Course", "CS101")]] []).2.2.1 (by decide)⟩

/-- **C7.** The export is a deterministic function of its two input
accumulators: two runs on equal accumulators produce equal file lists
(same names, byte-identical contents). The embedding is pure, so
determinism is function congruence; the verified content is that the
translated export depends on nothing besides the two inputs. -/
theorem export_deterministic (m1 f1 m2 f2 : List Record)
    (hm : m1 = m2) (hf : f1 = f2) :
    convertJsonToCsv m1 f1 = convertJsonToCsv m2 f2 := by
  rw [hm, hf]

/-- **C7 witness**: two runs on the same concrete accumulators agree. -/
theorem export_deterministic_witness :
    convertJsonToCsv [[("Course", "CS101")]] [[("Teacher", "X")]] =
      convertJsonToCsv [[("Course", "CS101")]] [[("Teacher", "X")]] :=
  export_deterministic _ _ _ _ rfl rfl

theorem existing_cols_nil_of_no_expected (data : List Record)
    (hkeys : ∀ r ∈ data, ∀ kv ∈ r, kv.1 ∉ cols) :
    existing_cols data = [] := by
  unfold existing_cols
  apply List.filter_eq_nil_iff.mpr
  intro c hc hcontained
  have hmem : c ∈ dfColumns data := by
    simpa [List.elem_eq_mem] using hcontained
  rcases (mem_dfColumns data c).mp hmem with ⟨r, hr, hkey⟩
  rcases List.mem_map.mp hkey with ⟨kv, hkv, rfl⟩
  exact hkeys r hr kv hkv hc

theorem csvOf_of_no_cols (data : List Record) (hcols : existing_cols data = []) :
    csvOf data = blankCsv data.length := by
  unfold csvOf csvString blankCsv
  have hrows : data.map (rowCells data) = List.replicate data.length [] := by
    apply List.eq_replicate_iff.mpr
    refine ⟨by simp, ?_⟩
    intro b hb
    rcases List.mem_map.mp hb with ⟨r, _, rfl⟩
    unfold rowCells
    rw [hcols]
    rfl
  rw [hcols, hrows, ← List.replicate_succ, List.map_replicate]
  rfl

/-- **C9.** A non-empty accumulator none of whose records carry any of
the ten expected field names is not skipped: its CSV file is still
written, with an empty header line and one blank line per record — the
skip test checks only accumulator emptiness, not whether any expected
column survives the projection. -/
theorem no_expected_keys_still_exported (m f : List Record) :
    (m ≠ [] → (∀ r ∈ m, ∀ kv ∈ r, kv.1 ∉ cols) →
        existing_cols m = [] ∧
        (fileName "male", blankCsv m.length) ∈ convertJsonToCsv m f) ∧
    (f ≠ [] → (∀ r ∈ f, ∀ kv ∈ r, kv.1 ∉ cols) →
        existing_cols f = [] ∧
        (fileName "female", blankCsv f.length) ∈ convertJsonToCsv m f) := by
  constructor
  · intro hm hkeys
    have hcols := existing_cols_nil_of_no_expected m hkeys
    refine ⟨hcols, ?_⟩
    rw [← csvOf_of_no_cols m hcols]
    exact male_file_mem m f hm
  · intro hf hkeys
    have hcols := existing_cols_nil_of_no_expected f hkeys
    refine ⟨hcols, ?_⟩
    rw [← csvOf_of_no_cols f hcols]
    exact female_file_mem m f hf

/-- **C9 witness**: a single male record whose only key `Zzz` is not
among the expected names still yields a male file of one empty header
line and one blank row. -/
theorem no_expected_keys_still_exported_witness :
    existing_cols [[("Zzz", "1")]] = [] ∧
    (fileName "male", blankCsv 1) ∈ convertJsonToCsv [[("Zzz", "1")]] [] :=
  (no_expected_keys_still_exported [[("Zzz", "1")]] []).1 (by decide) (by decide)

/-- **C10.** The export leaves both input record sequences unchanged:
the loop body only reads the accumulators (emptiness test and table
construction, which builds derived copies) and appends to the file
list, so after the run the caller's accumulators hold exactly the
records they held before, in the same order. -/
theorem export_preserves_inputs (m f : List Record) :
    (convertJsonToCsvRun m f).male = m ∧ (convertJsonToCsvRun m f).female = f := by
  cases m <;> cases f <;> exact ⟨rfl, rfl⟩
